import Mathlib

/-!
Verification development for the Puffing Billy availability checker
(`src/server.py`).  The Python source is shallowly embedded: the pure
status classifier and its regular-expression searches, the date
formatter built on `strptime`/`strftime`, the calendar picker with its
bounded month-alignment loop, and the `query_date` orchestrator are
translated into executable Lean definitions.  Browser interactions
(element lookups, clicks, input values) are abstracted into explicit
environment records whose fields record the outcome the page would
deliver at each step; everything the Python code computes from those
outcomes is reproduced faithfully.

Modelling conventions for textual primitives: Python's `\s`, `str.strip`
and `str.isspace` all use the same Unicode whitespace set, reproduced
below in `pySpace`.  Case folding (`str.lower`, `re.I`) and the `\w` /
`\d` classes are modelled on their ASCII fragment (`Char.toLower`,
`Char.isAlphanum`, `Char.isDigit`); the exotic non-ASCII case foldings
of Python are outside the scope of the claims checked here.
-/

/-- Python's whitespace set: the characters for which `str.isspace()` holds,
which is also the set matched by `\s` in a Unicode pattern and stripped by
`str.strip()`. -/
def pySpace (c : Char) : Bool :=
  decide (c = ' ' ∨ c = '\t' ∨ c = '\n' ∨ c = '\r' ∨ c = '\x0b' ∨ c = '\x0c' ∨
    c = '\x1c' ∨ c = '\x1d' ∨ c = '\x1e' ∨ c = '\x1f' ∨ c = '\x85' ∨ c = '\xa0' ∨
    c = ' ' ∨ c = ' ' ∨ c = ' ' ∨ c = ' ' ∨ c = ' ' ∨
    c = ' ' ∨ c = ' ' ∨ c = ' ' ∨ c = ' ' ∨ c = ' ' ∨
    c = ' ' ∨ c = ' ' ∨ c = ' ' ∨ c = ' ' ∨ c = ' ' ∨
    c = ' ' ∨ c = '　')

/-- Word characters of the regex class `\w` (ASCII fragment), used by the
word-boundary assertion `\b`. -/
def isWordChar (c : Char) : Bool := c.isAlphanum || c = '_'

/-- All characters of the list are Python whitespace. -/
def AllSp (l : List Char) : Prop := l.all pySpace = true

instance (l : List Char) : Decidable (AllSp l) := by unfold AllSp; infer_instance

/-- `str.strip()` on a character list: drop leading and trailing whitespace. -/
def pyStrip (cs : List Char) : List Char :=
  (((cs.dropWhile pySpace).reverse.dropWhile pySpace)).reverse

/-- `str.strip()` on a `String`. -/
def pyStripStr (s : String) : String := ⟨pyStrip s.data⟩

/-- `str.lower()` (ASCII fragment). -/
def lowerStr (s : String) : String := ⟨s.data.map Char.toLower⟩

/-- Numeric value of a decimal-digit list, as computed by Python `int()`. -/
def natOf (cs : List Char) : Nat := cs.foldl (fun a c => a * 10 + (c.toNat - 48)) 0

/-- Python substring test `pat in hay` on character lists. -/
def listContainsSub (hay pat : List Char) : Bool :=
  if pat.isPrefixOf hay then true
  else match hay with
    | [] => false
    | _ :: t => listContainsSub t pat

/-- Case-insensitive literal matching: consume the (lowercase) pattern `lit`
from the front of the text, returning the remainder.  This is how a literal
word inside an `re.I` pattern matches. -/
def consumeCI : List Char → List Char → Option (List Char)
  | [], cs => some cs
  | _ :: _, [] => none
  | p :: ps, c :: cs => if Char.toLower c == p then consumeCI ps cs else none

/-- Greedy `\s+` followed by a continuation `k`: one mandatory whitespace
character, then the maximal whitespace run is skipped (the continuations used
here never start with whitespace, so the greedy match is deterministic). -/
def spThen {α : Type} (k : List Char → Option α) : List Char → Option α
  | [] => none
  | c :: cs => if pySpace c then k (cs.dropWhile pySpace) else none

/-- Greedy `\d+`: accumulate the maximal digit run (Python `int` of the
matched group) and return the remainder. -/
def takeDigits : Nat → List Char → Nat × List Char
  | acc, [] => (acc, [])
  | acc, c :: cs => if c.isDigit then takeDigits (acc * 10 + (c.toNat - 48)) cs else (acc, c :: cs)

/-- The trailing word-boundary assertion `\b` after a word character: the
next character must be absent or a non-word character. -/
def tailBoundary : List Char → Bool
  | [] => true
  | c :: _ => !(isWordChar c)

/- ======= the five status patterns of server.py ======= -/

def limitedChars : List Char := "limited".data
def seatsChars : List Char := "seats".data
def availChars : List Char := "available".data
def bookChars : List Char := "book".data
def nowChars : List Char := "now".data
def fullyChars : List Char := "fully".data
def bookedChars : List Char := "booked".data
def notChars : List Char := "not".data

/-- Tail of `PAT_LIMITED` after the digit group and its following `\s+`:
the literal `available` (no trailing boundary in the pattern). -/
def availTail (cs : List Char) : Option Unit := (consumeCI availChars cs).map (fun _ => ())

/-- Tail of `PAT_LIMITED` from the digit group on: `(\d+)\s+available`,
returning the parsed count. -/
def limDigits : List Char → Option Nat
  | [] => none
  | c :: cs =>
    if c.isDigit then
      let t := takeDigits (c.toNat - 48) cs
      match spThen availTail t.2 with
      | some _ => some t.1
      | none => none
    else none

/-- Tail of `PAT_LIMITED` from `seats` on: `seats\s+(\d+)\s+available`. -/
def seatsTail (cs : List Char) : Option Nat :=
  match consumeCI seatsChars cs with
  | some r => spThen limDigits r
  | none => none

/-- Attempt `PAT_LIMITED = limited\s+seats\s+(\d+)\s+available` (re.I) at the
current position, returning `int` of the captured group on success. -/
def matchLimitedAt (cs : List Char) : Option Nat :=
  match consumeCI limitedChars cs with
  | some r => spThen seatsTail r
  | none => none

/-- `PAT_LIMITED.search`: leftmost match, returning the parsed seat count. -/
def searchLimited : List Char → Option Nat
  | [] => none
  | c :: cs =>
    match matchLimitedAt (c :: cs) with
    | some n => some n
    | none => searchLimited cs

/-- `now\b`, the tail of `PAT_BOOKNOW`. -/
def nowBTail (cs : List Char) : Option Unit :=
  match consumeCI nowChars cs with
  | some r => if tailBoundary r then some () else none
  | none => none

/-- Attempt `\bbook\s*now\b` at the current position (the leading `\b` is
checked by the scanner `searchWB`).  `\s*` may match zero characters. -/
def matchBookNowAt (cs : List Char) : Bool :=
  match consumeCI bookChars cs with
  | some r => (nowBTail (r.dropWhile pySpace)).isSome
  | none => false

/-- `booked\b`, the tail of `PAT_FULL`. -/
def bookedBTail (cs : List Char) : Option Unit :=
  match consumeCI bookedChars cs with
  | some r => if tailBoundary r then some () else none
  | none => none

/-- Attempt `\bfully\s+booked\b` at the current position. -/
def matchFullAt (cs : List Char) : Bool :=
  match consumeCI fullyChars cs with
  | some r => (spThen bookedBTail r).isSome
  | none => false

/-- `available\b`, used by `PAT_NA` and `PAT_AVAIL`. -/
def availBTail (cs : List Char) : Option Unit :=
  match consumeCI availChars cs with
  | some r => if tailBoundary r then some () else none
  | none => none

/-- Attempt `\bnot\s+available\b` at the current position. -/
def matchNAAt (cs : List Char) : Bool :=
  match consumeCI notChars cs with
  | some r => (spThen availBTail r).isSome
  | none => false

/-- Attempt `\bavailable\b` at the current position. -/
def matchAvailAt (cs : List Char) : Bool := (availBTail cs).isSome

/-- `re.search` for a pattern starting with `\b` followed by a word
character: scan left to right, attempting `mAt` at every position whose
preceding character (tracked in `pw`) is not a word character. -/
def searchWB (mAt : List Char → Bool) : Bool → List Char → Bool
  | _, [] => false
  | pw, c :: cs => (!pw && mAt (c :: cs)) || searchWB mAt (isWordChar c) cs

/-- `PAT_BOOKNOW.search(t)` as a Boolean. -/
def searchBookNow (cs : List Char) : Bool := searchWB matchBookNowAt false cs

/-- `PAT_FULL.search(t)` as a Boolean. -/
def searchFull (cs : List Char) : Bool := searchWB matchFullAt false cs

/-- `PAT_NA.search(t)` as a Boolean. -/
def searchNA (cs : List Char) : Bool := searchWB matchNAAt false cs

/-- `PAT_AVAIL.search(t)` as a Boolean. -/
def searchAvail (cs : List Char) : Bool := searchWB matchAvailAt false cs

/-- `classify_status` after the initial `(text or "").strip()`: the rule
cascade of server.py lines 32-51 on the stripped text. -/
def classify_core (t : List Char) : String × Bool × Option Nat :=
  if t = [] then ("NA", false, none)
  else
    match searchLimited t with
    | some n => ("LIMITED", true, some n)
    | none =>
      if searchBookNow t then ("BOOK_NOW", true, none)
      else if searchFull t then ("FULL", false, some 0)
      else if searchNA t then ("NA", false, none)
      else if searchAvail t then ("AVAILABLE", true, none)
      else ("UNKNOWN", false, none)

/-- `classify_status(text)` of server.py.  The argument is optional because
the Python code guards with `(text or "")`, accepting a missing value. -/
def classify_status (text : Option String) : String × Bool × Option Nat :=
  classify_core (pyStrip (text.getD "").data)

/- ======= the date formatter `_month_year` and `strptime` ======= -/

/-- Split at the first `/`: the characters before it and the remainder. -/
def breakSlash : List Char → Option (List Char × List Char)
  | [] => none
  | c :: cs =>
    if c = '/' then some ([], cs)
    else (breakSlash cs).map (fun p => (c :: p.1, p.2))

/-- The strings matched by the `strptime` directive `%d`: one or two digits
denoting 1..31 (a leading zero is allowed only for 01..09). -/
def dayVal (cs : List Char) : Option Nat :=
  if (cs.length = 1 ∨ cs.length = 2) ∧ cs.all Char.isDigit = true ∧
      1 ≤ natOf cs ∧ natOf cs ≤ 31 then some (natOf cs) else none

/-- The strings matched by `%m`: one or two digits denoting 1..12. -/
def monthVal (cs : List Char) : Option Nat :=
  if (cs.length = 1 ∨ cs.length = 2) ∧ cs.all Char.isDigit = true ∧
      1 ≤ natOf cs ∧ natOf cs ≤ 12 then some (natOf cs) else none

/-- The strings matched by `%Y`: exactly four digits. -/
def yearVal (cs : List Char) : Option Nat :=
  if cs.length = 4 ∧ cs.all Char.isDigit = true then some (natOf cs) else none

/-- Gregorian leap-year rule used by `datetime`. -/
def isLeap (y : Nat) : Prop := y % 4 = 0 ∧ (y % 100 ≠ 0 ∨ y % 400 = 0)

instance (y : Nat) : Decidable (isLeap y) := by unfold isLeap; infer_instance

/-- Days in a month, as enforced by the `datetime` constructor. -/
def daysInMonth (m y : Nat) : Nat :=
  if m = 2 then (if isLeap y then 29 else 28)
  else if m = 4 ∨ m = 6 ∨ m = 9 ∨ m = 11 then 30 else 31

/-- `datetime.strptime(s, "%d/%m/%Y")`, yielding `(day, month, year)`:
the full string must be day `/` month `/` four-digit year, and the triple
must denote a real calendar date (`datetime` also requires `year ≥ 1`). -/
def pyStrptimeDMY (cs : List Char) : Option (Nat × Nat × Nat) :=
  (breakSlash cs).bind (fun ar =>
    (breakSlash ar.2).bind (fun bc =>
      (dayVal ar.1).bind (fun d =>
        (monthVal bc.1).bind (fun m =>
          (yearVal bc.2).bind (fun y =>
            if 1 ≤ y ∧ d ≤ daysInMonth m y then some (d, m, y) else none)))))

/-- Full English month names produced by `strftime("%B")` in the C locale. -/
def monthName : Nat → String
  | 1 => "January"
  | 2 => "February"
  | 3 => "March"
  | 4 => "April"
  | 5 => "May"
  | 6 => "June"
  | 7 => "July"
  | 8 => "August"
  | 9 => "September"
  | 10 => "October"
  | 11 => "November"
  | 12 => "December"
  | _ => ""

/-- `strftime("%Y")`: the year zero-padded to four digits (as documented for
Python; a C library may omit the padding for years below 1000, which no
claim here exercises). -/
def pad4 (y : Nat) : String :=
  ⟨List.replicate (4 - (toString y).length) '0' ++ (toString y).data⟩

/-- `_month_year(date_str)` of server.py: parse `dd/mm/yyyy` and return
(`strftime("%B %Y")`, `d.day`); a `ValueError` of `strptime` is `none`. -/
def _month_year (s : String) : Option (String × Nat) :=
  (pyStrptimeDMY s.data).map (fun t => (monthName t.2.1 ++ " " ++ pad4 t.2.2, t.1))

/- ======= the calendar picker ======= -/

/-- Lowercased month names tried by `strptime(title, "%B %Y")` (re.I). -/
def monthNames : List (Nat × String) :=
  [(1, "january"), (2, "february"), (3, "march"), (4, "april"), (5, "may"),
   (6, "june"), (7, "july"), (8, "august"), (9, "september"), (10, "october"),
   (11, "november"), (12, "december")]

/-- Match a month name case-insensitively at the front of the text. -/
def monthFromStart (cs : List Char) : Option (Nat × List Char) :=
  monthNames.findSome? (fun p => (consumeCI p.2.data cs).map (fun r => (p.1, r)))

/-- `datetime.strptime(s, "%B %Y")`, yielding `(year, month)`: a full month
name, at least one whitespace character, then exactly four digits. -/
def parseMonthYear (s : String) : Option (Nat × Nat) :=
  match monthFromStart s.data with
  | some mr =>
    (match mr.2 with
     | c :: r =>
       if pySpace c then
         (let r2 := r.dropWhile pySpace
          if r2.length = 4 ∧ r2.all Char.isDigit = true then some (natOf r2, mr.1) else none)
       else none
     | [] => none)
  | none => none

/-- `datetime` order on `(year, month)` pairs (the parsed titles compare with
equal day fields). -/
def ymLt (a b : Nat × Nat) : Bool := decide (a.1 < b.1 ∨ (a.1 = b.1 ∧ a.2 < b.2))

/-- One iteration body of the month-alignment loop (server.py lines 161-169):
parse the displayed and the target titles; step forward when the target is
later, backward when it is not; any parse failure steps forward. -/
def stepOnce {W : Type} (title : W → String) (next prev : W → W) (target : String) (w : W) : W :=
  match parseMonthYear (title w), parseMonthYear target with
  | some cur, some tgt => if ymLt cur tgt then next w else prev w
  | _, _ => next w

/-- The month-alignment loop `for _ in range(36)` (server.py lines 157-170):
stop when the displayed title equals the target case-insensitively, else
perform one step; the second component counts the steps performed. -/
def alignMonth {W : Type} (title : W → String) (next prev : W → W) (target : String) :
    Nat → W → W × Nat
  | 0, w => (w, 0)
  | Nat.succ fuel, w =>
    if lowerStr (title w) == lowerStr target then (w, 0)
    else
      let r := alignMonth title next prev target fuel (stepOnce title next prev target w)
      (r.1, r.2 + 1)

/-- Environment of one `pick_date_via_calendar` call: the outcomes the page
delivers at each interaction.  `W` is the abstract state of the calendar
widget, transformed by the next/prev buttons; `dayCells` lists the
`.day:not(.old):not(.new)` cells (inner text, class attribute) shown in
state `w`; `curVal` is the input control's value after the click (`none`
models a read that raises). -/
structure PickEnv (W : Type) where
  inputOk : Bool
  dpOk : Bool
  switchPresent : Bool
  w0 : W
  title : W → String
  next : W → W
  prev : W → W
  dayCells : W → List (String × Option String)
  clickOk : Bool
  curVal : Option String

/-- Widget state after the month-alignment phase (run only when the
switch element exists). -/
def alignedWidget {W : Type} (p : PickEnv W) (target_title : String) : W :=
  if p.switchPresent then (alignMonth p.title p.next p.prev target_title 36 p.w0).1 else p.w0

def disabledChars : List Char := "disabled".data

/-- `pick_date_via_calendar(page, date_str)` of server.py: every failure
(missing element, unparsable date, no matching day cell, disabled cell,
click failure, unparsable or different control value) yields `False`;
`True` only when the verified control value equals the requested date. -/
def pick_date_via_calendar {W : Type} (p : PickEnv W) (date_str : String) : Bool :=
  if p.inputOk = false then false
  else
    match _month_year date_str with
    | none => false
    | some td =>
      if p.dpOk = false then false
      else
        match (p.dayCells (alignedWidget p td.1)).find?
            (fun c => pyStripStr c.1 == toString td.2) with
        | none => false
        | some cell =>
          if listContainsSub (lowerStr (cell.2.getD "")).data disabledChars then false
          else if p.clickOk = false then false
          else
            match pyStrptimeDMY date_str.data, pyStrptimeDMY (pyStrip (p.curVal.getD "").data) with
            | some tgt, some cur => decide (cur = tgt)
            | _, _ => false

/- ======= the query orchestrator ======= -/

/-- One row produced by `read_name_and_status`. -/
structure DepartureRow where
  name : String
  status_text : String
  code : String
  available : Bool
  seats_left : Option Nat
deriving DecidableEq

/-- The structured result of `query_date`. -/
structure QueryResult where
  ok : Bool
  message : String
  date : String
  rows : List DepartureRow
deriving DecidableEq

def PRODUCT_NAME : String := "Belgrave to Lakeside Return"

/-- Message of the open-product failure branch (server.py line 355). -/
def msgProductNotFound : String :=
  "官网页面上找不到产品『" ++ PRODUCT_NAME ++ "』，可能结构已改变或被重定向。"

/-- Message of the date-pick failure branch (server.py line 365). -/
def msgNotBookable (d : String) : String :=
  "官网没有 " ++ d ++ " 可售班次（日期不可选或超出范围）。"

/-- Message of the empty-row-list branch (server.py line 381). -/
def msgNoSchedule (d : String) : String :=
  "官网没有 " ++ d ++ " 的班次列表，视为没票卖。"

/-- Environment of one `query_date` call: `openOk` is the result of
`open_product`; `tableOk` records whether the unguarded table-visibility
waits of steps 3-4 succeed (a failure there raises past the orchestrator,
modelled as `none`); `rows` is what `read_name_and_status` returns. -/
structure QueryEnv (W : Type) where
  openOk : Bool
  pick : PickEnv W
  tableOk : Bool
  rows : List DepartureRow

/-- `query_date(date_str)` of server.py (lines 335-391): the three guarded
stages with their fixed failure messages, `none` for the unguarded
exception path. -/
def query_date {W : Type} (date_str : String) (env : QueryEnv W) : Option QueryResult :=
  if env.openOk = false then some ⟨false, msgProductNotFound, date_str, []⟩
  else if pick_date_via_calendar env.pick date_str = false then
    some ⟨false, msgNotBookable date_str, date_str, []⟩
  else if env.tableOk = false then none
  else if env.rows = [] then some ⟨false, msgNoSchedule date_str, date_str, []⟩
  else some ⟨true, "success", date_str, env.rows⟩

/- ======= stripping does not change the regex searches ======= -/

/-- Facts about Python whitespace characters: they are fixed by ASCII
lowercasing and are neither digits nor word characters. -/
theorem pySpace_props {c : Char} (h : pySpace c = true) :
    Char.toLower c = c ∧ c.isDigit = false ∧ isWordChar c = false := by
  unfold pySpace at h
  have h' := of_decide_eq_true h
  rcases h' with rfl|rfl|rfl|rfl|rfl|rfl|rfl|rfl|rfl|rfl|rfl|rfl|rfl|rfl|rfl|rfl|rfl|rfl|rfl|
    rfl|rfl|rfl|rfl|rfl|rfl|rfl|rfl|rfl|rfl <;> exact ⟨by decide, by decide, by decide⟩

theorem allSp_cons {c : Char} {l : List Char} (h : AllSp (c :: l)) :
    pySpace c = true ∧ AllSp l := by
  unfold AllSp at h ⊢
  rw [List.all_cons, Bool.and_eq_true] at h
  exact h

/-- A whitespace character never matches a non-whitespace pattern character
case-insensitively. -/
theorem lowEq_sp_false {c p : Char} (hc : pySpace c = true) (hp : pySpace p = false) :
    (Char.toLower c == p) = false := by
  rw [(pySpace_props hc).1]
  refine beq_eq_false_iff_ne.mpr ?_
  intro h
  subst h
  rw [hc] at hp
  simp at hp

theorem consumeCI_sp_head {p : Char} (ps : List Char) {c : Char} (cs : List Char)
    (hc : pySpace c = true) (hp : pySpace p = false) :
    consumeCI (p :: ps) (c :: cs) = none := by
  simp [consumeCI, lowEq_sp_false hc hp]

/-- Appending trailing whitespace commutes with case-insensitive literal
consumption when the literal has no whitespace characters. -/
theorem consumeCI_append_sp (lit xs ws : List Char)
    (hlit : lit.all (fun p => !pySpace p) = true) (hws : AllSp ws) :
    consumeCI lit (xs ++ ws) = Option.map (· ++ ws) (consumeCI lit xs) := by
  induction lit generalizing xs with
  | nil => simp [consumeCI]
  | cons p ps ih =>
    rw [List.all_cons, Bool.and_eq_true] at hlit
    obtain ⟨hp, hps⟩ := hlit
    have hp' : pySpace p = false := by revert hp; cases pySpace p <;> simp
    cases xs with
    | nil =>
      rw [List.nil_append]
      cases ws with
      | nil => rfl
      | cons w ws2 =>
        obtain ⟨hw, _⟩ := allSp_cons hws
        rw [consumeCI_sp_head ps ws2 hw hp']
        rfl
    | cons x xs2 =>
      rw [List.cons_append]
      simp only [consumeCI]
      by_cases hx : (Char.toLower x == p) = true
      · rw [if_pos hx, if_pos hx]
        exact ih xs2 hps
      · rw [if_neg hx, if_neg hx]
        rfl

theorem dropWhile_all_sp {l : List Char} (h : AllSp l) : l.dropWhile pySpace = [] := by
  induction l with
  | nil => rfl
  | cons c l ih =>
    obtain ⟨h1, h2⟩ := allSp_cons h
    rw [List.dropWhile_cons, if_pos h1]
    exact ih h2

theorem dropWhile_append_sp (xs ws : List Char) (hws : AllSp ws) :
    (xs ++ ws).dropWhile pySpace =
      (if xs.dropWhile pySpace = [] then [] else xs.dropWhile pySpace ++ ws) := by
  induction xs with
  | nil =>
    rw [List.nil_append, dropWhile_all_sp hws]
    simp [List.dropWhile]
  | cons x xs ih =>
    by_cases hx : pySpace x = true
    · rw [List.cons_append, List.dropWhile_cons, if_pos hx, List.dropWhile_cons, if_pos hx]
      exact ih
    · rw [List.cons_append, List.dropWhile_cons, if_neg hx, List.dropWhile_cons, if_neg hx,
        if_neg (by simp)]
      rw [List.cons_append]

/-- `spThen k` on an all-whitespace text fails whenever `k [] = none`. -/
theorem spThen_all_sp {α : Type} (k : List Char → Option α) (ws : List Char)
    (hws : AllSp ws) (hk0 : k [] = none) : spThen k ws = none := by
  cases ws with
  | nil => rfl
  | cons w ws2 =>
    obtain ⟨hw, hws2⟩ := allSp_cons hws
    simp only [spThen, if_pos hw]
    rw [dropWhile_all_sp hws2]
    exact hk0

/-- Appending trailing whitespace commutes with `spThen k` when it commutes
with the continuation `k` and `k` rejects the empty text. -/
theorem spThen_append_sp {α : Type} (k : List Char → Option α) (xs ws : List Char)
    (hws : AllSp ws) (hk : ∀ zs, k (zs ++ ws) = k zs) (hk0 : k [] = none) :
    spThen k (xs ++ ws) = spThen k xs := by
  cases xs with
  | nil =>
    rw [List.nil_append, spThen_all_sp k ws hws hk0]
    rfl
  | cons x xs2 =>
    rw [List.cons_append]
    simp only [spThen]
    by_cases hx : pySpace x = true
    · rw [if_pos hx, if_pos hx, dropWhile_append_sp xs2 ws hws]
      by_cases h2 : xs2.dropWhile pySpace = []
      · rw [if_pos h2, h2]
      · rw [if_neg h2]
        exact hk _
    · rw [if_neg hx, if_neg hx]

theorem takeDigits_append_sp (acc : Nat) (xs ws : List Char) (hws : AllSp ws) :
    takeDigits acc (xs ++ ws) =
      ((takeDigits acc xs).1,
       if (takeDigits acc xs).2 = [] then ws else (takeDigits acc xs).2 ++ ws) := by
  induction xs generalizing acc with
  | nil =>
    rw [List.nil_append]
    cases ws with
    | nil => rfl
    | cons w ws2 =>
      obtain ⟨hw, _⟩ := allSp_cons hws
      have : w.isDigit = false := (pySpace_props hw).2.1
      simp [takeDigits, this]
  | cons x xs2 ih =>
    by_cases hx : x.isDigit = true
    · rw [List.cons_append]
      simp only [takeDigits, if_pos hx]
      exact ih _
    · rw [List.cons_append]
      simp only [takeDigits, if_neg hx]
      simp

theorem availTail_append_sp (xs ws : List Char) (hws : AllSp ws) :
    availTail (xs ++ ws) = availTail xs := by
  unfold availTail
  rw [consumeCI_append_sp availChars xs ws (by decide) hws]
  cases consumeCI availChars xs <;> rfl

theorem limDigits_append_sp (xs ws : List Char) (hws : AllSp ws) :
    limDigits (xs ++ ws) = limDigits xs := by
  cases xs with
  | nil =>
    rw [List.nil_append]
    cases ws with
    | nil => rfl
    | cons w ws2 =>
      obtain ⟨hw, _⟩ := allSp_cons hws
      have : w.isDigit = false := (pySpace_props hw).2.1
      simp [limDigits, this]
  | cons x xs2 =>
    rw [List.cons_append]
    simp only [limDigits]
    by_cases hx : x.isDigit = true
    · rw [if_pos hx, if_pos hx, takeDigits_append_sp _ xs2 ws hws]
      by_cases h2 : (takeDigits (x.toNat - 48) xs2).2 = []
      · rw [if_pos h2, h2]
        rw [spThen_all_sp availTail ws hws rfl]
        rfl
      · rw [if_neg h2,
          spThen_append_sp availTail _ ws hws (fun zs => availTail_append_sp zs ws hws) rfl]
    · rw [if_neg hx, if_neg hx]

theorem seatsTail_append_sp (xs ws : List Char) (hws : AllSp ws) :
    seatsTail (xs ++ ws) = seatsTail xs := by
  unfold seatsTail
  rw [consumeCI_append_sp seatsChars xs ws (by decide) hws]
  cases consumeCI seatsChars xs with
  | none => rfl
  | some r =>
    exact spThen_append_sp limDigits r ws hws (fun zs => limDigits_append_sp zs ws hws) rfl

theorem matchLimitedAt_append_sp (xs ws : List Char) (hws : AllSp ws) :
    matchLimitedAt (xs ++ ws) = matchLimitedAt xs := by
  unfold matchLimitedAt
  rw [consumeCI_append_sp limitedChars xs ws (by decide) hws]
  cases consumeCI limitedChars xs with
  | none => rfl
  | some r =>
    exact spThen_append_sp seatsTail r ws hws (fun zs => seatsTail_append_sp zs ws hws) rfl

theorem matchLimitedAt_sp_head {c : Char} (cs : List Char) (hc : pySpace c = true) :
    matchLimitedAt (c :: cs) = none := by
  unfold matchLimitedAt
  rw [show limitedChars = 'l' :: "imited".data from rfl,
    consumeCI_sp_head _ cs hc (by decide)]

theorem searchLimited_all_sp (l : List Char) (hl : AllSp l) : searchLimited l = none := by
  induction l with
  | nil => rfl
  | cons c l ih =>
    obtain ⟨h1, h2⟩ := allSp_cons hl
    simp only [searchLimited, matchLimitedAt_sp_head l h1]
    exact ih h2

theorem searchLimited_append_sp (xs ws : List Char) (hws : AllSp ws) :
    searchLimited (xs ++ ws) = searchLimited xs := by
  induction xs with
  | nil =>
    rw [List.nil_append, searchLimited_all_sp ws hws]
    rfl
  | cons x xs2 ih =>
    rw [List.cons_append]
    simp only [searchLimited]
    rw [show x :: (xs2 ++ ws) = (x :: xs2) ++ ws from rfl, matchLimitedAt_append_sp _ ws hws]
    cases matchLimitedAt (x :: xs2) with
    | none => exact ih
    | some n => rfl

theorem searchLimited_presp (ws xs : List Char) (hws : AllSp ws) :
    searchLimited (ws ++ xs) = searchLimited xs := by
  induction ws with
  | nil => rfl
  | cons w ws2 ih =>
    obtain ⟨h1, h2⟩ := allSp_cons hws
    rw [List.cons_append]
    simp only [searchLimited, matchLimitedAt_sp_head _ h1]
    exact ih h2

theorem allSp_takeWhile (l : List Char) : AllSp (l.takeWhile pySpace) := by
  unfold AllSp
  induction l with
  | nil => rfl
  | cons c l ih =>
    rw [List.takeWhile_cons]
    by_cases hc : pySpace c = true
    · rw [if_pos hc, List.all_cons, hc, ih]
      rfl
    · rw [if_neg hc]
      rfl

theorem allSp_reverse {l : List Char} (h : AllSp l) : AllSp l.reverse := by
  unfold AllSp at h ⊢
  rw [List.all_eq_true] at h ⊢
  intro x hx
  exact h x (List.mem_reverse.mp hx)

/-- Every text splits as leading whitespace, its stripped core, and
trailing whitespace. -/
theorem pyStrip_decomp (cs : List Char) :
    ∃ ws1 ws2, AllSp ws1 ∧ AllSp ws2 ∧ cs = ws1 ++ (pyStrip cs ++ ws2) := by
  refine ⟨cs.takeWhile pySpace, ((cs.dropWhile pySpace).reverse.takeWhile pySpace).reverse,
    allSp_takeWhile cs, allSp_reverse (allSp_takeWhile _), ?_⟩
  conv_lhs => rw [← List.takeWhile_append_dropWhile (p := pySpace) (l := cs)]
  congr 1
  unfold pyStrip
  conv_lhs => rw [← List.reverse_reverse (cs.dropWhile pySpace),
    ← List.takeWhile_append_dropWhile (p := pySpace) (l := (cs.dropWhile pySpace).reverse),
    List.reverse_append]

theorem pyStrip_eq_nil_of_all_sp {cs : List Char} (h : AllSp cs) : pyStrip cs = [] := by
  unfold pyStrip
  rw [dropWhile_all_sp h]
  rfl

theorem allSp_of_pyStrip_eq_nil {cs : List Char} (h : pyStrip cs = []) : AllSp cs := by
  obtain ⟨ws1, ws2, h1, h2, he⟩ := pyStrip_decomp cs
  rw [h, List.nil_append] at he
  subst he
  unfold AllSp at h1 h2 ⊢
  rw [List.all_append, h1, h2]
  rfl

/-- `PAT_LIMITED.search` is blind to leading and trailing whitespace, hence
to the `strip()` the classifier applies first. -/
theorem searchLimited_strip (cs : List Char) :
    searchLimited (pyStrip cs) = searchLimited cs := by
  obtain ⟨ws1, ws2, h1, h2, he⟩ := pyStrip_decomp cs
  conv_rhs => rw [he]
  rw [searchLimited_presp ws1 _ h1, searchLimited_append_sp _ ws2 h2]

theorem tailBoundary_append_sp (xs ws : List Char) (hws : AllSp ws) :
    tailBoundary (xs ++ ws) = tailBoundary xs := by
  cases xs with
  | nil =>
    rw [List.nil_append]
    cases ws with
    | nil => rfl
    | cons w ws2 =>
      obtain ⟨hw, _⟩ := allSp_cons hws
      simp [tailBoundary, (pySpace_props hw).2.2]
  | cons x xs2 => rfl

theorem nowBTail_append_sp (xs ws : List Char) (hws : AllSp ws) :
    nowBTail (xs ++ ws) = nowBTail xs := by
  unfold nowBTail
  rw [consumeCI_append_sp nowChars xs ws (by decide) hws]
  cases consumeCI nowChars xs with
  | none => rfl
  | some r =>
    simp only [Option.map]
    rw [tailBoundary_append_sp r ws hws]

theorem matchBookNowAt_append_sp (xs ws : List Char) (hws : AllSp ws) :
    matchBookNowAt (xs ++ ws) = matchBookNowAt xs := by
  unfold matchBookNowAt
  rw [consumeCI_append_sp bookChars xs ws (by decide) hws]
  cases consumeCI bookChars xs with
  | none => rfl
  | some r =>
    simp only [Option.map]
    rw [dropWhile_append_sp r ws hws]
    by_cases h2 : r.dropWhile pySpace = []
    · rw [if_pos h2, h2]
    · rw [if_neg h2, nowBTail_append_sp _ ws hws]

theorem matchBookNowAt_sp_head {c : Char} (cs : List Char) (hc : pySpace c = true) :
    matchBookNowAt (c :: cs) = false := by
  unfold matchBookNowAt
  rw [show bookChars = 'b' :: "ook".data from rfl, consumeCI_sp_head _ cs hc (by decide)]

/-- A `\b`-anchored search over all-whitespace text fails. -/
theorem searchWB_all_sp (mAt : List Char → Bool)
    (hm : ∀ (c : Char) (cs : List Char), pySpace c = true → mAt (c :: cs) = false)
    (l : List Char) (pw : Bool) (hl : AllSp l) : searchWB mAt pw l = false := by
  induction l generalizing pw with
  | nil => rfl
  | cons c l ih =>
    obtain ⟨h1, h2⟩ := allSp_cons hl
    simp only [searchWB, hm c l h1, Bool.and_false, Bool.false_or]
    exact ih _ h2

theorem searchWB_append_sp (mAt : List Char → Bool) (xs ws : List Char) (hws : AllSp ws)
    (hm : ∀ (c : Char) (cs : List Char), pySpace c = true → mAt (c :: cs) = false)
    (hma : ∀ zs, mAt (zs ++ ws) = mAt zs) (pw : Bool) :
    searchWB mAt pw (xs ++ ws) = searchWB mAt pw xs := by
  induction xs generalizing pw with
  | nil =>
    rw [List.nil_append, searchWB_all_sp mAt hm ws pw hws]
    rfl
  | cons x xs2 ih =>
    rw [List.cons_append]
    simp only [searchWB]
    rw [show x :: (xs2 ++ ws) = (x :: xs2) ++ ws from rfl, hma (x :: xs2), ih _]

theorem searchWB_presp (mAt : List Char → Bool) (ws xs : List Char) (hws : AllSp ws)
    (hm : ∀ (c : Char) (cs : List Char), pySpace c = true → mAt (c :: cs) = false) :
    searchWB mAt false (ws ++ xs) = searchWB mAt false xs := by
  induction ws with
  | nil => rfl
  | cons w ws2 ih =>
    obtain ⟨h1, h2⟩ := allSp_cons hws
    rw [List.cons_append]
    simp only [searchWB, hm w _ h1, (pySpace_props h1).2.2, Bool.and_false, Bool.false_or]
    exact ih h2

/-- `PAT_BOOKNOW.search` is blind to the `strip()` the classifier applies. -/
theorem searchBookNow_strip (cs : List Char) :
    searchBookNow (pyStrip cs) = searchBookNow cs := by
  obtain ⟨ws1, ws2, h1, h2, he⟩ := pyStrip_decomp cs
  unfold searchBookNow
  conv_rhs => rw [he]
  rw [searchWB_presp matchBookNowAt ws1 _ h1 (fun c cs2 hc => matchBookNowAt_sp_head cs2 hc),
    searchWB_append_sp matchBookNowAt _ ws2 h2 (fun c cs2 hc => matchBookNowAt_sp_head cs2 hc)
      (fun zs => matchBookNowAt_append_sp zs ws2 h2) false]

/- ======= claims about the status classifier ======= -/

/-- C1: for every input, the triple returned by `classify_status` has its
available flag true exactly for the codes LIMITED, BOOK_NOW and AVAILABLE,
and carries a seat count exactly for LIMITED (the count parsed by
`PAT_LIMITED`) and FULL (the value 0). -/
theorem C1_classifier_triple_invariant (t : Option String) :
    ((classify_status t).2.1 = true ↔
      ((classify_status t).1 = "LIMITED" ∨ (classify_status t).1 = "BOOK_NOW" ∨
        (classify_status t).1 = "AVAILABLE"))
  ∧ ((classify_status t).2.2 ≠ none ↔
      ((classify_status t).1 = "LIMITED" ∨ (classify_status t).1 = "FULL"))
  ∧ ((classify_status t).1 = "LIMITED" →
      (classify_status t).2.2 = searchLimited (pyStrip (t.getD "").data))
  ∧ ((classify_status t).1 = "FULL" → (classify_status t).2.2 = some 0) := by
  have key : ∀ cs : List Char,
      ((classify_core cs).2.1 = true ↔
        ((classify_core cs).1 = "LIMITED" ∨ (classify_core cs).1 = "BOOK_NOW" ∨
          (classify_core cs).1 = "AVAILABLE"))
    ∧ ((classify_core cs).2.2 ≠ none ↔
        ((classify_core cs).1 = "LIMITED" ∨ (classify_core cs).1 = "FULL"))
    ∧ ((classify_core cs).1 = "LIMITED" → (classify_core cs).2.2 = searchLimited cs)
    ∧ ((classify_core cs).1 = "FULL" → (classify_core cs).2.2 = some 0) := by
    intro cs
    unfold classify_core
    by_cases h0 : cs = []
    · subst h0
      decide
    · rw [if_neg h0]
      generalize searchLimited cs = o
      generalize searchBookNow cs = b1
      generalize searchFull cs = b2
      generalize searchNA cs = b3
      generalize searchAvail cs = b4
      cases o with
      | some n =>
        exact ⟨by simp, ⟨fun _ => Or.inl rfl, fun _ => Option.some_ne_none n⟩,
          fun _ => rfl,
          fun h => absurd (show ("LIMITED" : String) = "FULL" from h) (by decide)⟩
      | none => cases b1 <;> cases b2 <;> cases b3 <;> cases b4 <;> decide
  simp only [classify_status]
  exact key _

def fullyBookedStr : String := "Fully booked"

theorem C1_witness : (classify_status (some fullyBookedStr)).2.2 = some 0 :=
  (C1_classifier_triple_invariant (some fullyBookedStr)).2.2.2 (by decide)

/-- C2: every status string in which `PAT_LIMITED` finds a match (with
leftmost parsed count `n`) is classified as `("LIMITED", true, n)`. -/
theorem C2_limited_pattern (s : String) (n : Nat) (h : searchLimited s.data = some n) :
    classify_status (some s) = ("LIMITED", true, some n) := by
  have hL : searchLimited (pyStrip s.data) = some n := (searchLimited_strip s.data).trans h
  have hne : ¬(pyStrip s.data = []) := by
    intro h0
    rw [h0] at hL
    simp [searchLimited] at hL
  unfold classify_status
  simp only [Option.getD_some]
  unfold classify_core
  rw [if_neg hne, hL]

def limitedStr : String := "Limited seats 3 available!"

theorem C2_witness : classify_status (some limitedStr) = ("LIMITED", true, some 3) :=
  C2_limited_pattern limitedStr 3 (by decide)

/-- C3: a non-blank status string in which both `PAT_BOOKNOW` and `PAT_FULL`
find matches while `PAT_LIMITED` does not is classified as BOOK_NOW — the
book-now rule takes priority over the fully-booked rule. -/
theorem C3_booknow_priority (s : String)
    (hbn : searchBookNow s.data = true) (_hfb : searchFull s.data = true)
    (hlim : searchLimited s.data = none) (hne : ¬ AllSp s.data) :
    classify_status (some s) = ("BOOK_NOW", true, none) := by
  have hL : searchLimited (pyStrip s.data) = none := (searchLimited_strip s.data).trans hlim
  have hB : searchBookNow (pyStrip s.data) = true := (searchBookNow_strip s.data).trans hbn
  have h0 : ¬(pyStrip s.data = []) := fun h => hne (allSp_of_pyStrip_eq_nil h)
  unfold classify_status
  simp only [Option.getD_some]
  unfold classify_core
  rw [if_neg h0, hL]
  rw [hB]
  rfl

def bookNowFullStr : String := "Book now - fully booked"

theorem C3_witness : classify_status (some bookNowFullStr) = ("BOOK_NOW", true, none) :=
  C3_booknow_priority bookNowFullStr (by decide) (by decide) (by decide) (by decide)

/-- C9: an empty or whitespace-only status string is classified as
`("NA", false, absent)`. -/
theorem C9_blank_is_na (s : String) (h : AllSp s.data) :
    classify_status (some s) = ("NA", false, none) := by
  unfold classify_status
  simp only [Option.getD_some]
  unfold classify_core
  rw [if_pos (pyStrip_eq_nil_of_all_sp h)]

def wsStr : String := " \t "

theorem C9_witness : classify_status (some wsStr) = ("NA", false, none) :=
  C9_blank_is_na wsStr (by decide)

def emptyStr : String := ""

/-- C10: a missing (`None`) input does not fault the classifier: the
`(text or "")` guard yields `("NA", false, absent)`, the same result as for
the empty string. -/
theorem C10_none_input :
    classify_status none = ("NA", false, none) ∧
    classify_status none = classify_status (some emptyStr) := by
  constructor <;> rfl

/- ======= claims about the picker and the orchestrator ======= -/

/-- C4: whenever `query_date` returns a result, `ok` is true exactly when
all three stages succeed and the row list is non-empty; a true `ok` comes
with the message `success` and the parsed rows, a false `ok` with an empty
row list. -/
theorem C4_query_result_invariant (W : Type) (date : String) (env : QueryEnv W)
    (r : QueryResult) (h : query_date date env = some r) :
    (r.ok = true ↔
      (env.openOk = true ∧ pick_date_via_calendar env.pick date = true ∧
       env.tableOk = true ∧ env.rows ≠ []))
  ∧ (r.ok = true → (r.message = "success" ∧ r.rows = env.rows ∧ r.rows ≠ []))
  ∧ (r.ok = false → r.rows = []) := by
  unfold query_date at h
  split at h
  · rename_i h1
    injection h with h
    subst h
    simp [h1]
  · rename_i h1
    split at h
    · rename_i h2
      injection h with h
      subst h
      simp [h2]
    · rename_i h2
      split at h
      · simp at h
      · rename_i h3
        split at h
        · rename_i h4
          injection h with h
          subst h
          simp [h4]
        · rename_i h4
          injection h with h
          subst h
          simp only [Bool.not_eq_false] at h1 h2 h3
          simp [h1, h2, h3, h4]

def date15Str : String := "15/12/2025"

/-- Environment where the product page cannot be opened. -/
def envOpenFail : QueryEnv Unit :=
  { openOk := false
    pick :=
      { inputOk := false, dpOk := false, switchPresent := false, w0 := ()
        title := fun _ => "", next := id, prev := id, dayCells := fun _ => []
        clickOk := false, curVal := none }
    tableOk := true
    rows := [] }

theorem C4_witness :
    ((false = true) ↔
      (envOpenFail.openOk = true ∧
       pick_date_via_calendar envOpenFail.pick date15Str = true ∧
       envOpenFail.tableOk = true ∧ envOpenFail.rows ≠ []))
  ∧ ((false = true) →
      (msgProductNotFound = "success" ∧ ([] : List DepartureRow) = envOpenFail.rows ∧
       ([] : List DepartureRow) ≠ []))
  ∧ ((false = false) → ([] : List DepartureRow) = []) :=
  C4_query_result_invariant Unit date15Str envOpenFail
    ⟨false, msgProductNotFound, date15Str, []⟩ (by decide)

/-- C5 (amended): when the control's post-selection value parses to a date
different from the requested one, the picker fails and `query_date` returns
`ok = false`, empty rows and the fixed Chinese date-not-bookable message
(which embeds the requested date but contains no substring `bookable`). -/
theorem C5_clamped_date_not_bookable (W : Type) (env : QueryEnv W) (date : String)
    (tgt cur : Nat × Nat × Nat)
    (hopen : env.openOk = true)
    (htgt : pyStrptimeDMY date.data = some tgt)
    (hcur : pyStrptimeDMY (pyStrip (env.pick.curVal.getD "").data) = some cur)
    (hne : cur ≠ tgt) :
    pick_date_via_calendar env.pick date = false ∧
    query_date date env = some ⟨false, msgNotBookable date, date, []⟩ := by
  have hp : pick_date_via_calendar env.pick date = false := by
    unfold pick_date_via_calendar
    split
    · rfl
    split
    · rfl
    split
    · rfl
    split
    · rfl
    split
    · rfl
    split
    · rfl
    rw [htgt, hcur]
    exact decide_eq_false hne
  refine ⟨hp, ?_⟩
  unfold query_date
  rw [if_neg (show ¬(env.openOk = false) by simp [hopen]), if_pos hp]

def cell15Str : String := "15"
def dayClassStr : String := "day"
def val16Str : String := "16/12/2025"
def bookableChars : List Char := "bookable".data

/-- Environment where every step succeeds but the site silently selects
16/12/2025 instead of the requested 15/12/2025. -/
def envClamp : QueryEnv Unit :=
  { openOk := true
    pick :=
      { inputOk := true, dpOk := true, switchPresent := false, w0 := ()
        title := fun _ => "", next := id, prev := id
        dayCells := fun _ => [(cell15Str, some dayClassStr)]
        clickOk := true, curVal := some val16Str }
    tableOk := true
    rows := [] }

/-- C5 counterexample: in the clamped scenario the orchestrator's message is
the fixed Chinese string, which does not contain the substring `bookable`
that the claim requires. -/
theorem C5_counterexample :
    pyStrptimeDMY date15Str.data = some (15, 12, 2025)
  ∧ pyStrptimeDMY (pyStrip (envClamp.pick.curVal.getD "").data) = some (16, 12, 2025)
  ∧ ((16, 12, 2025) : Nat × Nat × Nat) ≠ (15, 12, 2025)
  ∧ query_date date15Str envClamp = some ⟨false, msgNotBookable date15Str, date15Str, []⟩
  ∧ listContainsSub (msgNotBookable date15Str).data bookableChars = false := by
  refine ⟨by decide, by decide, by decide, by decide, by decide⟩

theorem C5_witness :
    pick_date_via_calendar envClamp.pick date15Str = false ∧
    query_date date15Str envClamp = some ⟨false, msgNotBookable date15Str, date15Str, []⟩ :=
  C5_clamped_date_not_bookable Unit envClamp date15Str (15, 12, 2025) (16, 12, 2025)
    (by decide) (by decide) (by decide) (by decide)

/-- C6: if no current-month day cell's stripped text equals the target day
number, the picker returns `false` and `query_date` delivers a failure
result with empty rows. -/
theorem C6_no_matching_day_cell (W : Type) (env : QueryEnv W) (date : String)
    (td : String × Nat) (hmy : _month_year date = some td)
    (hcells : ∀ c ∈ env.pick.dayCells (alignedWidget env.pick td.1),
      pyStripStr c.1 ≠ toString td.2) :
    pick_date_via_calendar env.pick date = false ∧
    ∃ m, query_date date env = some ⟨false, m, date, []⟩ := by
  have hfind : (env.pick.dayCells (alignedWidget env.pick td.1)).find?
      (fun c => pyStripStr c.1 == toString td.2) = none := by
    rw [List.find?_eq_none]
    intro c hc
    simpa using hcells c hc
  have hp : pick_date_via_calendar env.pick date = false := by
    unfold pick_date_via_calendar
    split
    · rfl
    rw [hmy]
    split
    · rfl
    rename_i td2 heq
    injection heq with heq
    subst heq
    split
    · rfl
    rw [hfind]
  refine ⟨hp, ?_⟩
  unfold query_date
  by_cases h1 : env.openOk = false
  · rw [if_pos h1]
    exact ⟨msgProductNotFound, rfl⟩
  · rw [if_neg h1, if_pos hp]
    exact ⟨msgNotBookable date, rfl⟩

def cell1Str : String := "1"
def monthDec2025Str : String := "December 2025"

/-- Environment whose calendar shows only a day cell `1`, so a request for
day 15 finds no matching cell. -/
def envNoCell : QueryEnv Unit :=
  { openOk := true
    pick :=
      { inputOk := true, dpOk := true, switchPresent := false, w0 := ()
        title := fun _ => "", next := id, prev := id
        dayCells := fun _ => [(cell1Str, none)]
        clickOk := true, curVal := some val16Str }
    tableOk := true
    rows := [] }

theorem C6_witness :
    pick_date_via_calendar envNoCell.pick date15Str = false ∧
    ∃ m, query_date date15Str envNoCell = some ⟨false, m, date15Str, []⟩ :=
  C6_no_matching_day_cell Unit envNoCell date15Str (monthDec2025Str, 15)
    (by decide) (by decide)

/- ======= claims about the date formatter and the alignment loop ======= -/

theorem breakSlash_reconstruct : ∀ {cs : List Char} {p : List Char × List Char},
    breakSlash cs = some p → cs = p.1 ++ '/' :: p.2 := by
  intro cs
  induction cs with
  | nil => intro p h; simp [breakSlash] at h
  | cons c cs ih =>
    intro p h
    by_cases hc : c = '/'
    · subst hc
      simp only [breakSlash, if_pos rfl] at h
      injection h with h
      subst h
      rfl
    · simp only [breakSlash, if_neg hc] at h
      cases hb : breakSlash cs with
      | none => rw [hb] at h; simp at h
      | some q =>
        rw [hb] at h
        simp only [Option.map] at h
        injection h with h
        subst h
        rw [List.cons_append, ← ih hb]

theorem breakSlash_of_lit : ∀ (a r : List Char), (∀ x ∈ a, x ≠ '/') →
    breakSlash (a ++ '/' :: r) = some (a, r) := by
  intro a
  induction a with
  | nil => intro r _; simp [breakSlash]
  | cons x a ih =>
    intro r h
    have hx : x ≠ '/' := h x (by simp)
    simp only [List.cons_append, breakSlash, if_neg hx, List.append_eq]
    rw [ih r (fun y hy => h y (by simp [hy]))]
    rfl

theorem no_slash_of_digits {cs : List Char} (h : cs.all Char.isDigit = true) :
    ∀ x ∈ cs, x ≠ '/' := by
  rw [List.all_eq_true] at h
  intro x hx he
  subst he
  exact absurd (h _ hx) (by decide)

theorem dayVal_some {cs : List Char} {d : Nat} (h : dayVal cs = some d) :
    (cs.length = 1 ∨ cs.length = 2) ∧ cs.all Char.isDigit = true ∧ 1 ≤ natOf cs ∧
    natOf cs ≤ 31 ∧ d = natOf cs := by
  unfold dayVal at h
  split at h
  · rename_i hc
    injection h with h
    exact ⟨hc.1, hc.2.1, hc.2.2.1, hc.2.2.2, h.symm⟩
  · exact absurd h (by simp)

theorem monthVal_some {cs : List Char} {m : Nat} (h : monthVal cs = some m) :
    (cs.length = 1 ∨ cs.length = 2) ∧ cs.all Char.isDigit = true ∧ 1 ≤ natOf cs ∧
    natOf cs ≤ 12 ∧ m = natOf cs := by
  unfold monthVal at h
  split at h
  · rename_i hc
    injection h with h
    exact ⟨hc.1, hc.2.1, hc.2.2.1, hc.2.2.2, h.symm⟩
  · exact absurd h (by simp)

/-- `strptime("%d/%m/%Y")` succeeds on every well-formed decomposition. -/
theorem strptime_of_parts (a b c : List Char) (d m y : Nat)
    (hd : dayVal a = some d) (hm : monthVal b = some m) (hy : yearVal c = some y)
    (h1 : 1 ≤ y) (hle : d ≤ daysInMonth m y) :
    pyStrptimeDMY (a ++ '/' :: (b ++ '/' :: c)) = some (d, m, y) := by
  have hda : ∀ x ∈ a, x ≠ '/' := no_slash_of_digits (dayVal_some hd).2.1
  have hdb : ∀ x ∈ b, x ≠ '/' := no_slash_of_digits (monthVal_some hm).2.1
  unfold pyStrptimeDMY
  rw [breakSlash_of_lit a _ hda]
  simp only [Option.bind]
  rw [breakSlash_of_lit b _ hdb]
  simp only [Option.bind]
  rw [hd, hm, hy]
  simp only [Option.bind]
  rw [if_pos ⟨h1, hle⟩]

/-- `strptime("%d/%m/%Y")` succeeds only on well-formed decompositions. -/
theorem strptime_parts (cs : List Char) (d m y : Nat)
    (h : pyStrptimeDMY cs = some (d, m, y)) :
    ∃ a b c2, cs = a ++ '/' :: (b ++ '/' :: c2) ∧ dayVal a = some d ∧
      monthVal b = some m ∧ yearVal c2 = some y ∧ 1 ≤ y ∧ d ≤ daysInMonth m y := by
  unfold pyStrptimeDMY at h
  cases h1 : breakSlash cs with
  | none => rw [h1] at h; simp at h
  | some ar =>
    rw [h1] at h
    simp only [Option.bind] at h
    cases h2 : breakSlash ar.2 with
    | none => rw [h2] at h; simp at h
    | some bc =>
      rw [h2] at h
      simp only [Option.bind] at h
      cases h3 : dayVal ar.1 with
      | none => rw [h3] at h; simp at h
      | some d2 =>
        rw [h3] at h
        simp only [Option.bind] at h
        cases h4 : monthVal bc.1 with
        | none => rw [h4] at h; simp at h
        | some m2 =>
          rw [h4] at h
          simp only [Option.bind] at h
          cases h5 : yearVal bc.2 with
          | none => rw [h5] at h; simp at h
          | some y2 =>
            rw [h5] at h
            simp only [Option.bind] at h
            split at h
            · rename_i hcond
              injection h with h
              simp only [Prod.mk.injEq] at h
              obtain ⟨rfl, rfl, rfl⟩ := h
              refine ⟨ar.1, bc.1, bc.2, ?_, h3, h4, h5, hcond.1, hcond.2⟩
              rw [breakSlash_reconstruct h1, breakSlash_reconstruct h2]
            · simp at h

def date0501Str : String := "05/01/2026"
def jan2026Str : String := "January 2026"

/-- C7: for every well-formed `dd/mm/yyyy` input (day and month of one or
two digits in range, four-digit year, real calendar date with year at least
one) `_month_year` yields the full month name with the four-digit year and
the integer day; it fails exactly on the remaining inputs; and
`"05/01/2026"` yields `("January 2026", 5)`. -/
theorem C7_month_year_correct :
    (∀ (a b c : List Char) (d m y : Nat),
      dayVal a = some d → monthVal b = some m → yearVal c = some y →
      1 ≤ y → d ≤ daysInMonth m y →
      _month_year ⟨a ++ '/' :: (b ++ '/' :: c)⟩ = some (monthName m ++ " " ++ pad4 y, d))
  ∧ (∀ s : String, _month_year s = none ↔
      ¬ ∃ (a b c : List Char) (d m y : Nat),
        s.data = a ++ '/' :: (b ++ '/' :: c) ∧ dayVal a = some d ∧ monthVal b = some m ∧
        yearVal c = some y ∧ 1 ≤ y ∧ d ≤ daysInMonth m y)
  ∧ _month_year date0501Str = some (jan2026Str, 5) := by
  have pos : ∀ (a b c : List Char) (d m y : Nat),
      dayVal a = some d → monthVal b = some m → yearVal c = some y →
      1 ≤ y → d ≤ daysInMonth m y →
      _month_year ⟨a ++ '/' :: (b ++ '/' :: c)⟩ = some (monthName m ++ " " ++ pad4 y, d) := by
    intro a b c d m y hd hm hy h1 hle
    unfold _month_year
    rw [show (⟨a ++ '/' :: (b ++ '/' :: c)⟩ : String).data = a ++ '/' :: (b ++ '/' :: c)
      from rfl]
    rw [strptime_of_parts a b c d m y hd hm hy h1 hle]
    rfl
  refine ⟨pos, ?_, by decide⟩
  intro s
  constructor
  · intro hn hex
    obtain ⟨a, b, c, d, m, y, hs, hd, hm, hy, h1, hle⟩ := hex
    unfold _month_year at hn
    rw [hs, strptime_of_parts a b c d m y hd hm hy h1 hle] at hn
    simp at hn
  · intro hnex
    cases he : _month_year s with
    | none => rfl
    | some pr =>
      exfalso
      unfold _month_year at he
      obtain ⟨t, ht, hf⟩ := Option.map_eq_some'.mp he
      obtain ⟨d, m, y⟩ := t
      obtain ⟨a, b, c, hs, hd, hm, hy, h1, hle⟩ := strptime_parts s.data d m y ht
      exact hnex ⟨a, b, c, d, m, y, hs, hd, hm, hy, h1, hle⟩

theorem C7_witness :
    _month_year ⟨"5".data ++ '/' :: ("1".data ++ '/' :: "2026".data)⟩ =
      some (monthName 1 ++ " " ++ pad4 2026, 5) :=
  C7_month_year_correct.1 ("5".data) ("1".data) ("2026".data) 5 1 2026
    (by decide) (by decide) (by decide) (by decide) (by decide)

/-- C8: the month-alignment loop never performs more than its 36 budgeted
steps, for every widget, title function and target; and whenever the
displayed title fails to parse as `%B %Y`, the step taken is the forward
one. -/
theorem C8_align_bounded (W : Type) (title : W → String) (next prev : W → W)
    (target : String) (w : W) :
    (alignMonth title next prev target 36 w).2 ≤ 36
  ∧ (∀ v : W, parseMonthYear (title v) = none →
      stepOnce title next prev target v = next v) := by
  constructor
  · have key : ∀ (fuel : Nat) (v : W),
        (alignMonth title next prev target fuel v).2 ≤ fuel := by
      intro fuel
      induction fuel with
      | zero => intro v; exact Nat.le_refl 0
      | succ n ih =>
        intro v
        simp only [alignMonth]
        split
        · exact Nat.zero_le _
        · exact Nat.succ_le_succ (ih _)
    exact key 36 w
  · intro v hv
    unfold stepOnce
    rw [hv]

def bogusStr : String := "bogus"
def targetJanStr : String := "January 2026"

/-- Widget title function used to exercise the alignment loop. -/
def titleW : Nat → String := fun n => if n = 0 then bogusStr else emptyStr

theorem C8_witness :
    (alignMonth titleW Nat.succ id targetJanStr 36 0).2 ≤ 36
  ∧ stepOnce titleW Nat.succ id targetJanStr 0 = Nat.succ 0 :=
  ⟨(C8_align_bounded Nat titleW Nat.succ id targetJanStr 0).1,
   (C8_align_bounded Nat titleW Nat.succ id targetJanStr 0).2 0 (by decide)⟩
